import Mathlib

/-!
# taz: a load-test orchestrator (`taz.go`)

Shallow embedding of `RunLoadTest`.

* Machine integers: `uint64` values are naturals below `2 ^ 64`, and the one
  place where the source increments one (`numRequests++`) is reduced modulo
  `2 ^ 64`.  `time.Duration` is an `int64` count of nanoseconds, an `Int`.
* The workload `cfg.LoadTestFunc` is an impure `func() error`.  It is embedded
  as a table giving, for worker `w` and loop index `j`, what the call made by
  that worker in that iteration returns (`none` is Go's `nil` error).  Theorems
  quantify over every table.
* The context is embedded by what a worker sees when it polls `ctx.Done()`:
  for worker `w`, iteration `j`, at the outer `select` (`false`) or the inner
  `select` (`true`).
* Each goroutine is a sequential program: `workerLoop` produces the sequence
  of its effects.  The statement `xs = append(xs, x)` on a variable shared by
  the goroutines is a read of the variable followed by a write of it, with no
  lock in between (the source takes none), so it contributes two effects.
* `RunLoadTest` interleaves the goroutines along a schedule and then waits for
  every goroutine to finish (`wg.Wait()`).
* The allocation `make([]time.Duration, 0, cfg.TotalRequests)` panics when the
  capacity is out of range for the Go runtime (`maxCap`); a panic is reported
  in the field `crashed` of `Run`, and the call then returns nothing.
  Otherwise memory is not bounded: an allocation within range and the creation
  of a goroutine always succeed.
-/

namespace Taz

/-- Number of values of Go's `uint64`. -/
def U64 : Nat := 2 ^ 64

/-- Go's `time.Duration`: a signed 64-bit count of nanoseconds. -/
abbrev Duration := Int

/-- A non-nil Go `error` value, opaque to the orchestrator. -/
abbrev GoError := Nat

/-- Go's `time.Second`. -/
def Second : Duration := 1000000000

/-- The workload `func() error`: the value returned by the call that worker
`w` makes in iteration `j`; `none` is the `nil` error. -/
abbrev Workload := Nat → Nat → Option GoError

/-- The context as the workers observe it: `c w j inner` tells whether
`ctx.Done()` is ready when worker `w` polls it in iteration `j`, at the outer
`select` (`inner = false`) or at the inner one (`inner = true`). -/
abbrev Context := Nat → Nat → Bool → Bool

/-- Go's `context.Background()`: never done. -/
def Background : Context := fun _ _ _ => false

/-- The type `LoadTestConfig` of the source. -/
structure LoadTestConfig where
  WorkerCount : Nat
  RequestsPerSecond : Nat
  TotalRequests : Nat
  LoadTestFunc : Option Workload

/-- The type `LoadTestResult` of the source. -/
structure LoadTestResult where
  ResponseTimes : List Duration
  Errors : List GoError
deriving DecidableEq, Repr

/-- What the run does not control: which ready branch the outer `select` takes
when both are ready (`true` is `case <-workChannel`), the value of
`time.Since(startTime)` in each iteration, and the order in which the scheduler
lets the goroutines take their steps. -/
structure World where
  pick : Nat → Nat → Bool
  elapsed : Nat → Nat → Duration
  schedule : List Nat

/-- Lines 40-48 of `RunLoadTest`: zero fields are replaced by their defaults. -/
def applyDefaults (cfg : LoadTestConfig) : LoadTestConfig :=
  let cfg1 : LoadTestConfig :=
    if cfg.RequestsPerSecond = 0 then
      ⟨cfg.WorkerCount, 10, cfg.TotalRequests, cfg.LoadTestFunc⟩ else cfg
  let cfg2 : LoadTestConfig :=
    if cfg1.TotalRequests = 0 then
      ⟨cfg1.WorkerCount, cfg1.RequestsPerSecond, 100, cfg1.LoadTestFunc⟩ else cfg1
  if cfg2.WorkerCount = 0 then
    ⟨10, cfg2.RequestsPerSecond, cfg2.TotalRequests, cfg2.LoadTestFunc⟩ else cfg2

/-- Go's conversion of a `uint64` to `int64` (`time.Duration(x)`): the same 64
bits read as a two's complement number. -/
def toInt64 (x : Nat) : Int :=
  if x % U64 < 2 ^ 63 then ((x % U64 : Nat) : Int) else ((x % U64 : Nat) : Int) - (U64 : Int)

/-- Line 61: `requestInterval := time.Second / time.Duration(cfg.RequestsPerSecond)`.
Go's integer division truncates toward zero and panics on a zero divisor
(`none`). -/
def requestInterval (requestsPerSecond : Nat) : Option Duration :=
  if toInt64 requestsPerSecond = 0 then none
  else some (Int.tdiv Second (toInt64 requestsPerSecond))

/-- Lines 63-64 and 69-72: the share `numRequests` of the worker with index `i`. -/
def numRequests (totalRequests workerCount i : Nat) : Nat :=
  let requestsPerWorker := totalRequests / workerCount
  let remainderRequests := totalRequests % workerCount
  if i < remainderRequests then (requestsPerWorker + 1) % U64 else requestsPerWorker

/-- The effects of a worker goroutine, in program order. -/
inductive Op where
  | call (r : Option GoError)
  | loadErrors
  | storeErrors (e : GoError)
  | loadTimes
  | storeTimes (d : Duration)
  | sleep (d : Duration)
deriving DecidableEq, Repr

/-- One completed iteration of the worker loop (lines 86-91). -/
def iteration (r : Option GoError) (d interval : Duration) : List Op :=
  [Op.call r]
    ++ (match r with
        | some e => [Op.loadErrors, Op.storeErrors e]
        | none => [])
    ++ [Op.loadTimes, Op.storeTimes d, Op.sleep interval]

/-- Lines 77-95: the loop of worker `w`, from index `j`, with `n` iterations
left. -/
def workerLoop (ctx : Context) (pick : Nat → Nat → Bool) (elapsed : Nat → Nat → Duration)
    (f : Workload) (interval : Duration) (w : Nat) : Nat → Nat → List Op
  | 0, _ => []
  | n + 1, j =>
    if ctx w j false && !pick w j then []
    else if ctx w j true then []
    else iteration (f w j) (elapsed w j) interval
      ++ workerLoop ctx pick elapsed f interval w n (j + 1)

/-- The variables shared by the goroutines, and the record of the workload
calls made and of the arguments of the `time.Sleep` calls made so far. -/
structure Shared where
  responseTimes : List Duration
  errors : List GoError
  calls : List (Option GoError)
  sleeps : List Duration
deriving DecidableEq, Repr

/-- A worker goroutine: the effects it still has to perform and the values it
has read from the shared variables for the `append` in progress. -/
structure Thread where
  ops : List Op
  seenTimes : List Duration
  seenErrors : List GoError
deriving DecidableEq, Repr

/-- Performs one effect of a goroutine. -/
def execOp (op : Op) (seenTimes : List Duration) (seenErrors : List GoError) (s : Shared) :
    List Duration × List GoError × Shared :=
  match op with
  | Op.call r =>
    (seenTimes, seenErrors, ⟨s.responseTimes, s.errors, s.calls ++ [r], s.sleeps⟩)
  | Op.loadErrors => (seenTimes, s.errors, s)
  | Op.storeErrors e =>
    (seenTimes, seenErrors, ⟨s.responseTimes, seenErrors ++ [e], s.calls, s.sleeps⟩)
  | Op.loadTimes => (s.responseTimes, seenErrors, s)
  | Op.storeTimes d =>
    (seenTimes, seenErrors, ⟨seenTimes ++ [d], s.errors, s.calls, s.sleeps⟩)
  | Op.sleep d =>
    (seenTimes, seenErrors, ⟨s.responseTimes, s.errors, s.calls, s.sleeps ++ [d]⟩)

/-- One step of a goroutine; a finished goroutine does nothing. -/
def stepThread (t : Thread) (s : Shared) : Thread × Shared :=
  match t.ops with
  | [] => (t, s)
  | op :: rest =>
    let r := execOp op t.seenTimes t.seenErrors s
    (⟨rest, r.1, r.2.1⟩, r.2.2)

/-- The scheduler lets goroutine `i` take one step. -/
def stepAt : Nat → List Thread → Shared → List Thread × Shared
  | _, [], s => ([], s)
  | 0, t :: ts, s => ((stepThread t s).1 :: ts, (stepThread t s).2)
  | i + 1, t :: ts, s => (t :: (stepAt i ts s).1, (stepAt i ts s).2)

/-- Runs the goroutines along a schedule. -/
def runSchedule : List Nat → List Thread → Shared → List Thread × Shared
  | [], ts, s => (ts, s)
  | i :: is, ts, s => runSchedule is (stepAt i ts s).1 (stepAt i ts s).2

/-- Runs the remaining effects of one goroutine to the end. -/
def finishOps : List Op → List Duration → List GoError → Shared → Shared
  | [], _, _, s => s
  | op :: rest, seenTimes, seenErrors, s =>
    finishOps rest (execOp op seenTimes seenErrors s).1 (execOp op seenTimes seenErrors s).2.1
      (execOp op seenTimes seenErrors s).2.2

/-- Line 101, `wg.Wait()`: every goroutine runs to its end. -/
def drain : List Thread → Shared → Shared
  | [], s => s
  | t :: ts, s => drain ts (finishOps t.ops t.seenTimes t.seenErrors s)

/-- Lines 68-99: the goroutines launched, one per worker index. -/
def spawn (ctx : Context) (world : World) (f : Workload) (interval : Duration)
    (totalRequests workerCount : Nat) : List Thread :=
  (List.range workerCount).map fun i =>
    ⟨workerLoop ctx world.pick world.elapsed f interval i
      (numRequests totalRequests workerCount i) 0, [], []⟩

/-- Largest capacity for which `make([]time.Duration, 0, n)` does not panic:
the Go runtime (`makeslice`) panics with "cap out of range" when the `n`
elements of 8 bytes exceed its `maxAlloc`, which is `2 ^ 48` bytes on the 64-bit
platforms. -/
def maxCap : Nat := 2 ^ 45

/-- What a call of `RunLoadTest` does: the two values it returns, the number of
goroutines it launched, the workload calls that were made and the arguments of
the `time.Sleep` calls that were made. When the call panics, `crashed` holds the
message, nothing is returned and the other fields are empty. -/
structure Run where
  result : LoadTestResult
  err : Option String
  launched : Nat
  calls : List (Option GoError)
  sleeps : List Duration
  crashed : Option String
deriving DecidableEq, Repr

/-- Lines 53-55: a `nil` context (`none`) is replaced by `context.Background()`. -/
def contextOf (ctx : Option Context) : Context :=
  match ctx with
  | none => Background
  | some c => c

/-- The function `RunLoadTest` of the source. -/
def RunLoadTest (world : World) (ctx : Option Context) (cfg : LoadTestConfig) : Run :=
  let cfg := applyDefaults cfg
  match cfg.LoadTestFunc with
  | none => ⟨⟨[], []⟩, some "must provide a LoadTestFunc in config", 0, [], [], none⟩
  | some f =>
    let ctx := contextOf ctx
    if maxCap < cfg.TotalRequests then
      ⟨⟨[], []⟩, none, 0, [], [], some "makeslice: cap out of range"⟩
    else
      match requestInterval cfg.RequestsPerSecond with
      | none => ⟨⟨[], []⟩, none, 0, [], [], some "integer divide by zero"⟩
      | some interval =>
        let threads := spawn ctx world f interval cfg.TotalRequests cfg.WorkerCount
        let mid := runSchedule world.schedule threads ⟨[], [], [], []⟩
        let fin := drain mid.1 mid.2
        ⟨⟨fin.responseTimes, fin.errors⟩, none, cfg.WorkerCount, fin.calls, fin.sleeps, none⟩

/-- Tells whether an effect is a call of the workload. -/
def isCall : Op → Bool
  | Op.call _ => true
  | _ => false

/-- Tells whether an effect is the write that ends an append to `responseTimes`. -/
def isStoreTimes : Op → Bool
  | Op.storeTimes _ => true
  | _ => false

/-- Number of workload calls the goroutines still have to make. -/
def pendingCalls (ts : List Thread) : Nat :=
  (ts.map fun t => t.ops.countP isCall).sum

/-! ## Shares -/

theorem numRequests_eq (T W i : Nat) (hT : T < U64) :
    numRequests T W i = if i < T % W then T / W + 1 else T / W := by
  unfold numRequests
  simp only
  split
  · rename_i h
    have : T / W + 1 < U64 := by
      rcases W with _ | _ | W
      · rw [Nat.div_zero]
        unfold U64
        omega
      · simp [Nat.mod_one] at h
      · have hq : T / (W + 1 + 1) ≤ T / 2 := Nat.div_le_div_left (by omega) (by decide)
        unfold U64 at *
        omega
    exact Nat.mod_eq_of_lt this
  · rfl

theorem sum_range_ite (q r : Nat) (W : Nat) :
    ((List.range W).map (fun i => if i < r then q + 1 else q)).sum = W * q + min r W := by
  induction W with
  | zero => simp
  | succ n ih =>
    rw [List.range_succ, List.map_append, List.sum_append, ih]
    simp only [List.map_cons, List.map_nil, List.sum_cons, List.sum_nil]
    split
    · rw [Nat.min_eq_right (by omega), Nat.min_eq_right (by omega)]
      ring
    · rw [Nat.min_eq_left (by omega), Nat.min_eq_left (by omega)]
      ring

theorem sum_shares (T W : Nat) (hW : 1 ≤ W) (hT : T < U64) :
    ((List.range W).map (numRequests T W)).sum = T := by
  have h : (List.range W).map (numRequests T W)
      = (List.range W).map (fun i => if i < T % W then T / W + 1 else T / W) :=
    List.map_congr_left (fun i _ => numRequests_eq T W i hT)
  rw [h, sum_range_ite]
  have h1 : T % W < W := Nat.mod_lt _ (by omega)
  rw [Nat.min_eq_left (by omega)]
  exact Nat.div_add_mod T W


/-- C3: for `WorkerCount ≥ 1`, a 64-bit `TotalRequests` and a worker index
`i < WorkerCount`, the share of worker `i` is `TotalRequests div WorkerCount + 1`
when `i < TotalRequests mod WorkerCount` and `TotalRequests div WorkerCount`
otherwise; with 3 workers and 10 requests the shares are 4, 3, 3. -/
theorem share_formula (T W i : Nat) (hW : 1 ≤ W) (hT : T < U64) (hi : i < W) :
    numRequests T W i = (if i < T % W then T / W + 1 else T / W)
      ∧ (List.range 3).map (numRequests 10 3) = [4, 3, 3] := by
  have _ := hW
  have _ := hi
  exact ⟨numRequests_eq T W i hT, by decide⟩

theorem share_formula_witness :
    numRequests 10 3 0 = (if 0 < 10 % 3 then 10 / 3 + 1 else 10 / 3)
      ∧ (List.range 3).map (numRequests 10 3) = [4, 3, 3] :=
  share_formula 10 3 0 (by decide) (by decide) (by decide)

/-- C2: for 64-bit `WorkerCount ≥ 1` and `TotalRequests ≥ 1`, the shares of the
workers `0 .. WorkerCount - 1` add up to `TotalRequests`, and when there are
more workers than requests every worker with index `≥ TotalRequests` has share
0. -/
theorem shares_sum_total (T W : Nat) (hW : 1 ≤ W) (hW64 : W < U64) (hT : 1 ≤ T)
    (hT64 : T < U64) :
    ((List.range W).map (numRequests T W)).sum = T
      ∧ (T < W → ∀ i, T ≤ i → i < W → numRequests T W i = 0) := by
  have _ := hW64
  have _ := hT
  refine ⟨sum_shares T W hW hT64, ?_⟩
  intro hlt i hi _
  rw [numRequests_eq T W i hT64, Nat.mod_eq_of_lt hlt, Nat.div_eq_of_lt hlt]
  simp
  omega

theorem shares_sum_total_witness :
    ((List.range 7).map (numRequests 3 7)).sum = 3
      ∧ (3 < 7 → ∀ i, 3 ≤ i → i < 7 → numRequests 3 7 i = 0) :=
  shares_sum_total 3 7 (by decide) (by decide) (by decide) (by decide)

/-! ## Pacing interval -/

theorem applyDefaults_rps (cfg : LoadTestConfig) :
    (applyDefaults cfg).RequestsPerSecond
      = if cfg.RequestsPerSecond = 0 then 10 else cfg.RequestsPerSecond := by
  unfold applyDefaults
  simp only
  split_ifs <;> rfl

theorem toInt64_of_lt (r : Nat) (h : r < 2 ^ 63) : toInt64 r = (r : Int) := by
  have h1 : r % U64 = r := Nat.mod_eq_of_lt (by unfold U64; omega)
  unfold toInt64
  rw [h1, if_pos h]

theorem toInt64_of_ge (r : Nat) (h : 2 ^ 63 ≤ r) (h64 : r < U64) :
    toInt64 r = -((U64 - r : Nat) : Int) := by
  have h1 : r % U64 = r := Nat.mod_eq_of_lt h64
  unfold toInt64
  rw [h1, if_neg (by omega)]
  have : r ≤ U64 := by omega
  push_cast [this]
  ring

/-- The pacing interval for a positive 64-bit rate. -/
theorem requestInterval_cases (r : Nat) (h0 : 0 < r) (h64 : r < U64) :
    ∃ d, requestInterval r = some d
      ∧ (r < U64 - 1000000000 → d = ((1000000000 / r : Nat) : Int) ∧ 0 ≤ d)
      ∧ (U64 - 1000000000 ≤ r → d < 0) := by
  by_cases hs : r < 2 ^ 63
  · refine ⟨((1000000000 / r : Nat) : Int), ?_, ?_, ?_⟩
    · unfold requestInterval
      rw [toInt64_of_lt r hs, if_neg (by omega)]
      unfold Second
      rw [Int.ofNat_tdiv]
      rfl
    · intro _
      exact ⟨rfl, Int.ofNat_nonneg _⟩
    · intro h
      unfold U64 at h
      omega
  · have hs2 : 2 ^ 63 ≤ r := by omega
    have hpos : 0 < U64 - r := by omega
    refine ⟨-((1000000000 / (U64 - r) : Nat) : Int), ?_, ?_, ?_⟩
    · unfold requestInterval
      rw [toInt64_of_ge r hs2 h64, if_neg (by omega)]
      unfold Second
      rw [Int.tdiv_neg, Int.ofNat_tdiv]
      rfl
    · intro h
      have h1 : 1000000000 / (U64 - r) = 0 := Nat.div_eq_of_lt (by omega)
      have h2 : 1000000000 / r = 0 := Nat.div_eq_of_lt (by unfold U64 at h; omega)
      rw [h1, h2]
      simp
    · intro h
      have hle : U64 - r ≤ 1000000000 := by
        have h64b : U64 = 18446744073709551616 := by decide
        rw [h64b] at h ⊢
        omega
      have h1 : 1 ≤ 1000000000 / (U64 - r) := (Nat.one_le_div_iff hpos).2 hle
      have h2 : (0 : Int) < ((1000000000 / (U64 - r) : Nat) : Int) := by exact_mod_cast h1
      exact Int.neg_neg_of_pos h2

/-- The interval for the defaulted rate: for every 64-bit `RequestsPerSecond`,
once a zero is replaced by 10 the rate is positive and the division at line 61
does not divide by zero; for a rate below `2 ^ 64 - 10 ^ 9` the interval is
`floor (10 ^ 9 / RequestsPerSecond)` nanoseconds and is not negative; for a
rate of at least `2 ^ 64 - 10 ^ 9` the interval is negative. -/
theorem requestInterval_defaulted (cfg : LoadTestConfig) (h64 : cfg.RequestsPerSecond < U64) :
    0 < (applyDefaults cfg).RequestsPerSecond
      ∧ ∃ d, requestInterval (applyDefaults cfg).RequestsPerSecond = some d
        ∧ ((applyDefaults cfg).RequestsPerSecond < U64 - 1000000000 →
            d = ((1000000000 / (applyDefaults cfg).RequestsPerSecond : Nat) : Int) ∧ 0 ≤ d)
        ∧ (U64 - 1000000000 ≤ (applyDefaults cfg).RequestsPerSecond → d < 0) := by
  have hr := applyDefaults_rps cfg
  have h0 : 0 < (applyDefaults cfg).RequestsPerSecond := by
    rw [hr]
    split <;> omega
  have h1 : (applyDefaults cfg).RequestsPerSecond < U64 := by
    rw [hr]
    split
    · unfold U64
      omega
    · exact h64
  exact ⟨h0, requestInterval_cases _ h0 h1⟩

/-- C10 fails on the code: with `RequestsPerSecond = 2 ^ 64 - 1`, a positive
64-bit value, one worker and one request, the conversion
`time.Duration(cfg.RequestsPerSecond)` at line 61 gives `-1`, the interval is
`-1000000000` nanoseconds, and that is the argument of the `time.Sleep` the
worker makes at line 91; `floor (10 ^ 9 / RequestsPerSecond)` is 0. -/
theorem negative_sleep_interval :
    0 < 18446744073709551615 ∧ 18446744073709551615 < U64
      ∧ toInt64 18446744073709551615 = -1
      ∧ requestInterval 18446744073709551615 = some (-1000000000)
      ∧ ((1000000000 / 18446744073709551615 : Nat) : Int) = 0
      ∧ RunLoadTest ⟨fun _ _ => true, fun _ _ => 7, []⟩ none
          ⟨1, 18446744073709551615, 1, some fun _ _ => none⟩
        = ⟨⟨[7], []⟩, none, 1, [none], [-1000000000], none⟩ := by
  decide

/-! ## Workload calls: every interleaving makes the same number of calls -/

theorem execOp_calls (op : Op) (a : List Duration) (b : List GoError) (s : Shared) :
    (execOp op a b s).2.2.calls.length = s.calls.length + (if isCall op then 1 else 0) := by
  cases op <;> simp [execOp, isCall]

theorem stepThread_calls (t : Thread) (s : Shared) :
    (stepThread t s).2.calls.length + (stepThread t s).1.ops.countP isCall
      = s.calls.length + t.ops.countP isCall := by
  unfold stepThread
  cases h : t.ops with
  | nil => simp [h]
  | cons op rest =>
    simp only [execOp_calls, List.countP_cons]
    omega

theorem stepAt_calls (i : Nat) (ts : List Thread) (s : Shared) :
    (stepAt i ts s).2.calls.length + pendingCalls (stepAt i ts s).1
      = s.calls.length + pendingCalls ts := by
  induction ts generalizing i with
  | nil => simp [stepAt]
  | cons t ts ih =>
    cases i with
    | zero =>
      have h := stepThread_calls t s
      simp only [stepAt, pendingCalls, List.map_cons, List.sum_cons] at h ⊢
      omega
    | succ i =>
      have h := ih i
      simp only [stepAt, pendingCalls, List.map_cons, List.sum_cons] at h ⊢
      omega

theorem runSchedule_calls (sched : List Nat) (ts : List Thread) (s : Shared) :
    (runSchedule sched ts s).2.calls.length + pendingCalls (runSchedule sched ts s).1
      = s.calls.length + pendingCalls ts := by
  induction sched generalizing ts s with
  | nil => simp [runSchedule]
  | cons i is ih =>
    simp only [runSchedule]
    rw [ih, stepAt_calls]

theorem finishOps_calls (ops : List Op) (a : List Duration) (b : List GoError) (s : Shared) :
    (finishOps ops a b s).calls.length = s.calls.length + ops.countP isCall := by
  induction ops generalizing a b s with
  | nil => simp [finishOps]
  | cons op rest ih =>
    simp only [finishOps, List.countP_cons]
    rw [ih, execOp_calls]
    omega

theorem drain_calls (ts : List Thread) (s : Shared) :
    (drain ts s).calls.length = s.calls.length + pendingCalls ts := by
  induction ts generalizing s with
  | nil => simp [drain, pendingCalls]
  | cons t ts ih =>
    simp only [drain]
    rw [ih, finishOps_calls]
    simp only [pendingCalls, List.map_cons, List.sum_cons]
    omega

theorem iteration_countP_call (r : Option GoError) (d interval : Duration) :
    (iteration r d interval).countP isCall = 1 := by
  cases r <;> simp [iteration, isCall]

theorem iteration_countP_store (r : Option GoError) (d interval : Duration) :
    (iteration r d interval).countP isStoreTimes = 1 := by
  cases r <;> simp [iteration, isStoreTimes]

theorem workerLoop_background_calls (pick : Nat → Nat → Bool) (elapsed : Nat → Nat → Duration)
    (f : Workload) (interval : Duration) (w n j : Nat) :
    (workerLoop Background pick elapsed f interval w n j).countP isCall = n := by
  induction n generalizing j with
  | zero => simp [workerLoop]
  | succ n ih =>
    simp only [workerLoop, Background, Bool.false_and, Bool.false_eq_true, if_false,
      List.countP_append, iteration_countP_call]
    have h := ih (j + 1)
    simp only [Background] at h
    omega

theorem workerLoop_background_stores (pick : Nat → Nat → Bool) (elapsed : Nat → Nat → Duration)
    (f : Workload) (interval : Duration) (w n j : Nat) :
    (workerLoop Background pick elapsed f interval w n j).countP isStoreTimes = n := by
  induction n generalizing j with
  | zero => simp [workerLoop]
  | succ n ih =>
    simp only [workerLoop, Background, Bool.false_and, Bool.false_eq_true, if_false,
      List.countP_append, iteration_countP_store]
    have h := ih (j + 1)
    simp only [Background] at h
    omega

theorem pendingCalls_spawn (world : World) (f : Workload) (interval : Duration) (T W : Nat) :
    pendingCalls (spawn Background world f interval T W)
      = ((List.range W).map (numRequests T W)).sum := by
  unfold pendingCalls spawn
  rw [List.map_map]
  congr 1
  apply List.map_congr_left
  intro i _
  simp [workerLoop_background_calls]

/-- Without cancellation the workload is called `TotalRequests` times in all,
along every schedule. -/
theorem calls_total (world : World) (f : Workload) (interval : Duration) (T W : Nat)
    (hW : 1 ≤ W) (hT : T < U64) :
    (drain (runSchedule world.schedule (spawn Background world f interval T W) ⟨[], [], [], []⟩).1
      (runSchedule world.schedule (spawn Background world f interval T W) ⟨[], [], [], []⟩).2).calls.length
      = T := by
  rw [drain_calls]
  have h := runSchedule_calls world.schedule (spawn Background world f interval T W) ⟨[], [], [], []⟩
  rw [pendingCalls_spawn, sum_shares T W hW hT] at h
  simp only [List.length_nil] at h
  omega

/-! ## Defaults and the configuration error -/

theorem applyDefaults_workers (cfg : LoadTestConfig) :
    (applyDefaults cfg).WorkerCount = if cfg.WorkerCount = 0 then 10 else cfg.WorkerCount := by
  unfold applyDefaults
  simp only
  split_ifs <;> rfl

theorem applyDefaults_total (cfg : LoadTestConfig) :
    (applyDefaults cfg).TotalRequests
      = if cfg.TotalRequests = 0 then 100 else cfg.TotalRequests := by
  unfold applyDefaults
  simp only
  split_ifs <;> rfl

theorem applyDefaults_func (cfg : LoadTestConfig) :
    (applyDefaults cfg).LoadTestFunc = cfg.LoadTestFunc := by
  unfold applyDefaults
  simp only
  split_ifs <;> rfl

theorem applyDefaults_idem (cfg : LoadTestConfig) :
    applyDefaults (applyDefaults cfg) = applyDefaults cfg := by
  have h1 := applyDefaults_workers cfg
  have h2 := applyDefaults_rps cfg
  have h3 := applyDefaults_total cfg
  have e1 : (applyDefaults cfg).WorkerCount ≠ 0 := by
    rw [h1]
    split <;> omega
  have e2 : (applyDefaults cfg).RequestsPerSecond ≠ 0 := by
    rw [h2]
    split <;> omega
  have e3 : (applyDefaults cfg).TotalRequests ≠ 0 := by
    rw [h3]
    split <;> omega
  generalize applyDefaults cfg = c at e1 e2 e3
  unfold applyDefaults
  simp [e1, e2, e3]

theorem requestInterval_isSome (cfg : LoadTestConfig) (h64 : cfg.RequestsPerSecond < U64) :
    ∃ d, requestInterval (applyDefaults cfg).RequestsPerSecond = some d := by
  have hr := applyDefaults_rps cfg
  have h0 : 0 < (applyDefaults cfg).RequestsPerSecond := by
    rw [hr]
    split <;> omega
  have h1 : (applyDefaults cfg).RequestsPerSecond < U64 := by
    rw [hr]
    split
    · unfold U64
      omega
    · exact h64
  obtain ⟨d, hd, _⟩ := requestInterval_cases _ h0 h1
  exact ⟨d, hd⟩

theorem applyDefaults_eta (cfg : LoadTestConfig) (f : Workload)
    (hf : cfg.LoadTestFunc = some f) :
    applyDefaults cfg = ⟨(applyDefaults cfg).WorkerCount, (applyDefaults cfg).RequestsPerSecond,
      (applyDefaults cfg).TotalRequests, some f⟩ := by
  have h := applyDefaults_func cfg
  rw [hf] at h
  generalize applyDefaults cfg = c at h
  cases c
  simp_all

/-- A call that passes the nil check, the allocation and the division returns
what the goroutines leave once all of them have finished. -/
theorem RunLoadTest_run (world : World) (ctx : Option Context) (cfg : LoadTestConfig)
    (W R T : Nat) (f : Workload) (d : Duration) (ha : applyDefaults cfg = ⟨W, R, T, some f⟩)
    (hcap : T ≤ maxCap) (hd : requestInterval R = some d) :
    RunLoadTest world ctx cfg
      = ⟨⟨(drain (runSchedule world.schedule (spawn (contextOf ctx) world f d T W)
              ⟨[], [], [], []⟩).1
            (runSchedule world.schedule (spawn (contextOf ctx) world f d T W)
              ⟨[], [], [], []⟩).2).responseTimes,
          (drain (runSchedule world.schedule (spawn (contextOf ctx) world f d T W)
              ⟨[], [], [], []⟩).1
            (runSchedule world.schedule (spawn (contextOf ctx) world f d T W)
              ⟨[], [], [], []⟩).2).errors⟩,
        none, W,
        (drain (runSchedule world.schedule (spawn (contextOf ctx) world f d T W)
              ⟨[], [], [], []⟩).1
            (runSchedule world.schedule (spawn (contextOf ctx) world f d T W)
              ⟨[], [], [], []⟩).2).calls,
        (drain (runSchedule world.schedule (spawn (contextOf ctx) world f d T W)
              ⟨[], [], [], []⟩).1
            (runSchedule world.schedule (spawn (contextOf ctx) world f d T W)
              ⟨[], [], [], []⟩).2).sleeps,
        none⟩ := by
  unfold RunLoadTest
  simp only [ha, hd, if_neg (Nat.not_lt.2 hcap)]

/-- C5: for a configuration with a 64-bit rate, `RunLoadTest` returns a non-nil
error exactly when `cfg.LoadTestFunc` is nil; and when it is nil, whatever the
other fields, the context and the scheduling, the result is the empty
`LoadTestResult`, no goroutine is launched and the workload is never called. -/
theorem missing_workload (world : World) (ctx : Option Context) (cfg : LoadTestConfig)
    (h64 : cfg.RequestsPerSecond < U64) :
    ((RunLoadTest world ctx cfg).err ≠ none ↔ cfg.LoadTestFunc = none)
      ∧ (cfg.LoadTestFunc = none →
          (RunLoadTest world ctx cfg).result = ⟨[], []⟩
            ∧ (RunLoadTest world ctx cfg).launched = 0
            ∧ (RunLoadTest world ctx cfg).calls = []) := by
  have hf := applyDefaults_func cfg
  obtain ⟨d, hd⟩ := requestInterval_isSome cfg h64
  constructor
  · cases hc : cfg.LoadTestFunc with
    | none =>
      rw [hc] at hf
      simp [RunLoadTest, hf]
    | some f =>
      rw [hc] at hf
      simp only [RunLoadTest, hf, hd]
      split <;> simp
  · intro hc
    rw [hc] at hf
    simp [RunLoadTest, hf]

theorem missing_workload_witness :
    (((RunLoadTest ⟨fun _ _ => true, fun _ _ => 0, []⟩ none ⟨2, 5, 10, none⟩).err ≠ none
        ↔ (⟨2, 5, 10, none⟩ : LoadTestConfig).LoadTestFunc = none)
      ∧ ((⟨2, 5, 10, none⟩ : LoadTestConfig).LoadTestFunc = none →
          (RunLoadTest ⟨fun _ _ => true, fun _ _ => 0, []⟩ none ⟨2, 5, 10, none⟩).result
              = ⟨[], []⟩
            ∧ (RunLoadTest ⟨fun _ _ => true, fun _ _ => 0, []⟩ none ⟨2, 5, 10, none⟩).launched
              = 0
            ∧ (RunLoadTest ⟨fun _ _ => true, fun _ _ => 0, []⟩ none ⟨2, 5, 10, none⟩).calls
              = [])) :=
  missing_workload ⟨fun _ _ => true, fun _ _ => 0, []⟩ none ⟨2, 5, 10, none⟩ (by decide)

theorem RunLoadTest_applyDefaults (world : World) (ctx : Option Context) (cfg : LoadTestConfig) :
    RunLoadTest world ctx cfg = RunLoadTest world ctx (applyDefaults cfg) := by
  unfold RunLoadTest
  simp only [applyDefaults_idem]

theorem RunLoadTest_allZero (world : World) (f : Workload) (ctx : Option Context)
    (hctx : ctx = none ∨ ctx = some Background) :
    (RunLoadTest world ctx ⟨0, 0, 0, some f⟩).err = none
      ∧ (RunLoadTest world ctx ⟨0, 0, 0, some f⟩).launched = 10
      ∧ (RunLoadTest world ctx ⟨0, 0, 0, some f⟩).calls.length = 100 := by
  have hd : requestInterval 10 = some 100000000 := by decide
  have hc := calls_total world f 100000000 100 10 (by decide) (by decide)
  have hb : contextOf ctx = Background := by
    rcases hctx with h | h <;> subst h <;> rfl
  rw [RunLoadTest_run world ctx ⟨0, 0, 0, some f⟩ 10 10 100 f 100000000 rfl (by decide) hd, hb]
  exact ⟨rfl, rfl, hc⟩

/-- C6: a zero `WorkerCount`, `RequestsPerSecond` or `TotalRequests` is replaced
by 10, 10 or 100 and a non-zero field is left unchanged (and so is the
workload); `RunLoadTest` on a configuration is `RunLoadTest` on the
configuration with the defaults filled in; and the all-zero configuration with a
workload and a context that is nil or never done returns no error, launches 10
goroutines, each with share 10, and makes 100 workload calls, along every
schedule. -/
theorem defaults_applied (world : World) (ctx : Option Context) (cfg : LoadTestConfig)
    (f : Workload) :
    (applyDefaults cfg).WorkerCount = (if cfg.WorkerCount = 0 then 10 else cfg.WorkerCount)
      ∧ (applyDefaults cfg).RequestsPerSecond
          = (if cfg.RequestsPerSecond = 0 then 10 else cfg.RequestsPerSecond)
      ∧ (applyDefaults cfg).TotalRequests
          = (if cfg.TotalRequests = 0 then 100 else cfg.TotalRequests)
      ∧ (applyDefaults cfg).LoadTestFunc = cfg.LoadTestFunc
      ∧ RunLoadTest world ctx cfg = RunLoadTest world ctx (applyDefaults cfg)
      ∧ (RunLoadTest world none ⟨0, 0, 0, some f⟩).err = none
      ∧ (RunLoadTest world none ⟨0, 0, 0, some f⟩).launched = 10
      ∧ (RunLoadTest world none ⟨0, 0, 0, some f⟩).calls.length = 100
      ∧ (RunLoadTest world (some Background) ⟨0, 0, 0, some f⟩).err = none
      ∧ (RunLoadTest world (some Background) ⟨0, 0, 0, some f⟩).launched = 10
      ∧ (RunLoadTest world (some Background) ⟨0, 0, 0, some f⟩).calls.length = 100
      ∧ (List.range 10).map (numRequests 100 10) = List.replicate 10 10 :=
  ⟨applyDefaults_workers cfg, applyDefaults_rps cfg, applyDefaults_total cfg,
    applyDefaults_func cfg, RunLoadTest_applyDefaults world ctx cfg,
    (RunLoadTest_allZero world f none (Or.inl rfl)).1,
    (RunLoadTest_allZero world f none (Or.inl rfl)).2.1,
    (RunLoadTest_allZero world f none (Or.inl rfl)).2.2,
    (RunLoadTest_allZero world f (some Background) (Or.inr rfl)).1,
    (RunLoadTest_allZero world f (some Background) (Or.inr rfl)).2.1,
    (RunLoadTest_allZero world f (some Background) (Or.inr rfl)).2.2,
    by decide⟩

/-! ## Cancellation -/

theorem workerLoop_done (ctx : Context) (pick : Nat → Nat → Bool)
    (elapsed : Nat → Nat → Duration) (f : Workload) (interval : Duration) (w n j : Nat)
    (h : ∀ b, ctx w j b = true) :
    workerLoop ctx pick elapsed f interval w n j = [] := by
  cases n with
  | zero => rfl
  | succ n =>
    simp only [workerLoop, h, Bool.true_and, if_true]
    split <;> rfl

theorem stepAt_idle (i : Nat) (ts : List Thread) (s : Shared) (h : ∀ t ∈ ts, t.ops = []) :
    stepAt i ts s = (ts, s) := by
  induction ts generalizing i with
  | nil => cases i <;> rfl
  | cons t ts ih =>
    have ht : t.ops = [] := h t (List.mem_cons_self _ _)
    cases i with
    | zero => simp [stepAt, stepThread, ht]
    | succ i =>
      simp only [stepAt]
      rw [ih i (fun u hu => h u (List.mem_cons_of_mem _ hu))]

theorem runSchedule_idle (sched : List Nat) (ts : List Thread) (s : Shared)
    (h : ∀ t ∈ ts, t.ops = []) : runSchedule sched ts s = (ts, s) := by
  induction sched with
  | nil => rfl
  | cons i is ih =>
    simp only [runSchedule]
    rw [stepAt_idle i ts s h]
    exact ih

theorem drain_idle (ts : List Thread) (s : Shared) (h : ∀ t ∈ ts, t.ops = []) :
    drain ts s = s := by
  induction ts with
  | nil => rfl
  | cons t ts ih =>
    have ht : t.ops = [] := h t (List.mem_cons_self _ _)
    simp only [drain, ht, finishOps]
    exact ih (fun u hu => h u (List.mem_cons_of_mem _ hu))

theorem spawn_idle (ctx : Context) (world : World) (f : Workload) (interval : Duration)
    (T W : Nat) (h : ∀ w b, ctx w 0 b = true) :
    ∀ t ∈ spawn ctx world f interval T W, t.ops = [] := by
  intro t ht
  unfold spawn at ht
  rw [List.mem_map] at ht
  obtain ⟨i, _, rfl⟩ := ht
  exact workerLoop_done ctx world.pick world.elapsed f interval i _ 0 (h i)

/-- C7, as the code has it: for a configuration with a workload (and a 64-bit
rate) whose `TotalRequests` is at most `2 ^ 45`, if the context is already done
when `RunLoadTest` is called, so that every worker finds `ctx.Done()` ready in
its first iteration, then whichever ready branch each outer `select` takes and
along every schedule the call returns, the returned error is nil, the workload
is never called, the result is empty, and `ResponseTimes` has fewer entries than
the defaulted `TotalRequests`. -/
theorem RunLoadTest_cancelled (world : World) (c : Context) (cfg : LoadTestConfig)
    (f : Workload) (hf : cfg.LoadTestFunc = some f) (h64 : cfg.RequestsPerSecond < U64)
    (hcap : cfg.TotalRequests ≤ maxCap) (hdone : ∀ w b, c w 0 b = true) :
    (RunLoadTest world (some c) cfg).crashed = none
      ∧ (RunLoadTest world (some c) cfg).err = none
      ∧ (RunLoadTest world (some c) cfg).calls = []
      ∧ (RunLoadTest world (some c) cfg).result = ⟨[], []⟩
      ∧ (RunLoadTest world (some c) cfg).result.ResponseTimes.length
          < (applyDefaults cfg).TotalRequests := by
  obtain ⟨d, hd⟩ := requestInterval_isSome cfg h64
  have hT : 0 < (applyDefaults cfg).TotalRequests := by
    rw [applyDefaults_total]
    split <;> omega
  have hcap2 : (applyDefaults cfg).TotalRequests ≤ maxCap := by
    rw [applyDefaults_total]
    split
    · decide
    · exact hcap
  have hidle := spawn_idle c world f d (applyDefaults cfg).TotalRequests
    (applyDefaults cfg).WorkerCount hdone
  have hrun : RunLoadTest world (some c) cfg
      = ⟨⟨[], []⟩, none, (applyDefaults cfg).WorkerCount, [], [], none⟩ := by
    rw [RunLoadTest_run world (some c) cfg _ _ _ f d (applyDefaults_eta cfg f hf) hcap2 hd]
    have hc : contextOf (some c) = c := rfl
    rw [hc, runSchedule_idle _ _ _ hidle, drain_idle _ _ hidle]
  rw [hrun]
  exact ⟨rfl, rfl, rfl, rfl, hT⟩

theorem RunLoadTest_cancelled_witness :
    (RunLoadTest ⟨fun _ _ => true, fun _ _ => 7, [1, 0, 1]⟩ (some fun _ _ _ => true)
        ⟨2, 5, 10, some fun _ _ => none⟩).crashed = none
      ∧ (RunLoadTest ⟨fun _ _ => true, fun _ _ => 7, [1, 0, 1]⟩ (some fun _ _ _ => true)
        ⟨2, 5, 10, some fun _ _ => none⟩).err = none
      ∧ (RunLoadTest ⟨fun _ _ => true, fun _ _ => 7, [1, 0, 1]⟩ (some fun _ _ _ => true)
        ⟨2, 5, 10, some fun _ _ => none⟩).calls = []
      ∧ (RunLoadTest ⟨fun _ _ => true, fun _ _ => 7, [1, 0, 1]⟩ (some fun _ _ _ => true)
        ⟨2, 5, 10, some fun _ _ => none⟩).result = ⟨[], []⟩
      ∧ (RunLoadTest ⟨fun _ _ => true, fun _ _ => 7, [1, 0, 1]⟩ (some fun _ _ _ => true)
        ⟨2, 5, 10, some fun _ _ => none⟩).result.ResponseTimes.length
          < (applyDefaults ⟨2, 5, 10, some fun _ _ => none⟩).TotalRequests :=
  RunLoadTest_cancelled ⟨fun _ _ => true, fun _ _ => 7, [1, 0, 1]⟩ (fun _ _ _ => true)
    ⟨2, 5, 10, some fun _ _ => none⟩ (fun _ _ => none) rfl (by decide) (by decide)
    (fun _ _ => rfl)

/-- C7 fails as stated: with a workload, `TotalRequests = 2 ^ 63` (a 64-bit
value) and a context that is already done, the allocation at line 58 panics:
the call returns neither a result nor an error, and no goroutine is started. -/
theorem cancelled_allocation_crash :
    9223372036854775808 < U64
      ∧ RunLoadTest ⟨fun _ _ => true, fun _ _ => 7, []⟩ (some fun _ _ _ => true)
          ⟨2, 5, 9223372036854775808, some fun _ _ => none⟩
        = ⟨⟨[], []⟩, none, 0, [], [], some "makeslice: cap out of range"⟩
      ∧ (RunLoadTest ⟨fun _ _ => true, fun _ _ => 7, []⟩ (some fun _ _ _ => true)
          ⟨2, 5, 9223372036854775808, some fun _ _ => none⟩).crashed ≠ none := by
  decide

theorem workerLoop_background_succ (pick : Nat → Nat → Bool) (elapsed : Nat → Nat → Duration)
    (f : Workload) (interval : Duration) (w n j : Nat) :
    workerLoop Background pick elapsed f interval w (n + 1) j
      = iteration (f w j) (elapsed w j) interval
          ++ workerLoop Background pick elapsed f interval w n (j + 1) := rfl

theorem workerLoop_until (ctx : Context) (pick : Nat → Nat → Bool)
    (elapsed : Nat → Nat → Duration) (f : Workload) (interval : Duration) (w : Nat)
    (m rest j : Nat)
    (hact : ∀ i, j ≤ i → i < j + m → ∀ b, ctx w i b = false)
    (hdone : rest = 0 ∨ ∀ b, ctx w (j + m) b = true) :
    workerLoop ctx pick elapsed f interval w (m + rest) j
      = workerLoop Background pick elapsed f interval w m j := by
  induction m generalizing j with
  | zero =>
    rw [Nat.zero_add]
    rcases hdone with h | h
    · subst h
      rfl
    · rw [workerLoop_done ctx pick elapsed f interval w rest j (by simpa using h)]
      rfl
  | succ m ih =>
    have e : m + 1 + rest = (m + rest) + 1 := by omega
    rw [e, workerLoop_background_succ]
    have h0 : ∀ b, ctx w j b = false := hact j (Nat.le_refl _) (by omega)
    have hrec := ih (j + 1) (fun i hi1 hi2 => hact i (by omega) (by omega))
      (by
        have e2 : j + 1 + m = j + (m + 1) := by omega
        rw [e2]
        exact hdone)
    simp only [workerLoop, h0, Bool.false_and, Bool.false_eq_true, if_false]
    rw [hrec]

theorem finishOps_append (xs ys : List Op) (a : List Duration) (b : List GoError) (s : Shared) :
    ∃ a2 b2, finishOps (xs ++ ys) a b s = finishOps ys a2 b2 (finishOps xs a b s) := by
  induction xs generalizing a b s with
  | nil => exact ⟨a, b, rfl⟩
  | cons x xs ih =>
    simp only [List.cons_append, finishOps]
    exact ih _ _ _

theorem finishOps_iteration_times (r : Option GoError) (d interval : Duration)
    (a : List Duration) (b : List GoError) (s : Shared) :
    (finishOps (iteration r d interval) a b s).responseTimes = s.responseTimes ++ [d] := by
  cases r <;> simp [iteration, finishOps, execOp]

theorem finishOps_workerLoop_times (pick : Nat → Nat → Bool) (elapsed : Nat → Nat → Duration)
    (f : Workload) (interval : Duration) (w n j : Nat) (a : List Duration) (b : List GoError)
    (s : Shared) :
    (finishOps (workerLoop Background pick elapsed f interval w n j) a b s).responseTimes.length
      = s.responseTimes.length + n := by
  induction n generalizing j a b s with
  | zero => simp [workerLoop, finishOps]
  | succ n ih =>
    rw [workerLoop_background_succ]
    obtain ⟨a2, b2, h⟩ := finishOps_append (iteration (f w j) (elapsed w j) interval)
      (workerLoop Background pick elapsed f interval w n (j + 1)) a b s
    rw [h, ih, finishOps_iteration_times, List.length_append]
    simp only [List.length_cons, List.length_nil]
    omega

/-- The effects of one worker taken on its own: for a worker with share `n` and
`k ≤ n`, if the context is active at both polls of the iterations `0 .. k - 1`
and, when `k < n`, done at the polls of iteration `k`, then whichever branch the
`select` takes the worker performs exactly what it performs on a share of `k`
with a context that is never done: it calls the workload `k` times, starts `k`
appends to `responseTimes`, and when no other goroutine runs it adds `k` entries
to `responseTimes`; the iteration that sees the cancellation adds nothing. -/
theorem worker_stops_at_cancel (ctx : Context) (pick : Nat → Nat → Bool)
    (elapsed : Nat → Nat → Duration) (f : Workload) (interval : Duration) (w n k : Nat)
    (hk : k ≤ n) (hact : ∀ j, j < k → ∀ b, ctx w j b = false)
    (hdone : k < n → ∀ b, ctx w k b = true) (s : Shared) :
    workerLoop ctx pick elapsed f interval w n 0
        = workerLoop Background pick elapsed f interval w k 0
      ∧ (workerLoop ctx pick elapsed f interval w n 0).countP isCall = k
      ∧ (workerLoop ctx pick elapsed f interval w n 0).countP isStoreTimes = k
      ∧ (finishOps (workerLoop ctx pick elapsed f interval w n 0) [] [] s).responseTimes.length
          = s.responseTimes.length + k
      ∧ (finishOps (workerLoop ctx pick elapsed f interval w n 0) [] [] s).calls.length
          = s.calls.length + k := by
  have heq : workerLoop ctx pick elapsed f interval w n 0
      = workerLoop Background pick elapsed f interval w k 0 := by
    have e : n = k + (n - k) := by omega
    rw [e]
    refine workerLoop_until ctx pick elapsed f interval w k (n - k) 0
      (fun i _ hi => hact i (by omega)) ?_
    rcases Nat.lt_or_ge k n with hlt | hge
    · exact Or.inr (by simpa using hdone hlt)
    · exact Or.inl (by omega)
  rw [heq]
  refine ⟨rfl, workerLoop_background_calls _ _ _ _ _ _ _, workerLoop_background_stores _ _ _ _ _ _ _,
    finishOps_workerLoop_times _ _ _ _ _ _ _ _ _ _, ?_⟩
  rw [finishOps_calls, workerLoop_background_calls]

theorem worker_stops_at_cancel_witness :
    workerLoop (fun _ j _ => decide (2 ≤ j)) (fun _ _ => true) (fun _ _ => 7)
          (fun _ _ => some 3) 200000000 0 5 0
        = workerLoop Background (fun _ _ => true) (fun _ _ => 7) (fun _ _ => some 3)
            200000000 0 2 0
      ∧ (workerLoop (fun _ j _ => decide (2 ≤ j)) (fun _ _ => true) (fun _ _ => 7)
          (fun _ _ => some 3) 200000000 0 5 0).countP isCall = 2
      ∧ (workerLoop (fun _ j _ => decide (2 ≤ j)) (fun _ _ => true) (fun _ _ => 7)
          (fun _ _ => some 3) 200000000 0 5 0).countP isStoreTimes = 2
      ∧ (finishOps (workerLoop (fun _ j _ => decide (2 ≤ j)) (fun _ _ => true) (fun _ _ => 7)
          (fun _ _ => some 3) 200000000 0 5 0) [] [] ⟨[], [], [], []⟩).responseTimes.length
          = (⟨[], [], [], []⟩ : Shared).responseTimes.length + 2
      ∧ (finishOps (workerLoop (fun _ j _ => decide (2 ≤ j)) (fun _ _ => true) (fun _ _ => 7)
          (fun _ _ => some 3) 200000000 0 5 0) [] [] ⟨[], [], [], []⟩).calls.length
          = (⟨[], [], [], []⟩ : Shared).calls.length + 2 :=
  worker_stops_at_cancel (fun _ j _ => decide (2 ≤ j)) (fun _ _ => true) (fun _ _ => 7)
    (fun _ _ => some 3) 200000000 0 5 2 (by decide)
    (fun j hj _ => decide_eq_false (by omega)) (fun _ _ => rfl) ⟨[], [], [], []⟩

/-! ## Serial executions -/

theorem drain_spawn_times (pick : Nat → Nat → Bool) (elapsed : Nat → Nat → Duration)
    (f : Workload) (interval : Duration) (T W : Nat) (is : List Nat) (s : Shared) :
    (drain (is.map fun i => (⟨workerLoop Background pick elapsed f interval i
        (numRequests T W i) 0, [], []⟩ : Thread)) s).responseTimes.length
      = s.responseTimes.length + (is.map (numRequests T W)).sum := by
  induction is generalizing s with
  | nil => simp [drain]
  | cons i is ih =>
    simp only [List.map_cons, drain, List.sum_cons]
    rw [ih, finishOps_workerLoop_times]
    omega

/-- When the goroutines run one after the other and the context is never done,
`ResponseTimes` has `TotalRequests` entries. -/
theorem RunLoadTest_serial (pick : Nat → Nat → Bool) (elapsed : Nat → Nat → Duration)
    (cfg : LoadTestConfig) (f : Workload) (hf : cfg.LoadTestFunc = some f)
    (hr : cfg.RequestsPerSecond < U64) (hcap : cfg.TotalRequests ≤ maxCap) :
    (RunLoadTest ⟨pick, elapsed, []⟩ none cfg).crashed = none
      ∧ (RunLoadTest ⟨pick, elapsed, []⟩ none cfg).err = none
      ∧ (RunLoadTest ⟨pick, elapsed, []⟩ none cfg).result.ResponseTimes.length
          = (applyDefaults cfg).TotalRequests := by
  have hT : cfg.TotalRequests < U64 := Nat.lt_of_le_of_lt hcap (by decide)
  have hcap2 : (applyDefaults cfg).TotalRequests ≤ maxCap := by
    rw [applyDefaults_total]
    split
    · decide
    · exact hcap
  obtain ⟨d, hd⟩ := requestInterval_isSome cfg hr
  have hW : 1 ≤ (applyDefaults cfg).WorkerCount := by
    rw [applyDefaults_workers]
    split <;> omega
  have hT2 : (applyDefaults cfg).TotalRequests < U64 := by
    rw [applyDefaults_total]
    split
    · unfold U64
      omega
    · exact hT
  rw [RunLoadTest_run _ none cfg _ _ _ f d (applyDefaults_eta cfg f hf) hcap2 hd]
  have hb : contextOf none = Background := rfl
  simp only [hb, runSchedule, spawn]
  refine ⟨trivial, trivial, ?_⟩
  have h := drain_spawn_times pick elapsed f d (applyDefaults cfg).TotalRequests
    (applyDefaults cfg).WorkerCount (List.range (applyDefaults cfg).WorkerCount) ⟨[], [], [], []⟩
  rw [sum_shares _ _ hW hT2] at h
  simpa using h

/-! ## Unsynchronised appends -/

/-- C1 fails on the code: with `WorkerCount = 2`, `RequestsPerSecond = 5`,
`TotalRequests = 10`, a workload that always succeeds and a nil context, along
the schedule in which both goroutines read `responseTimes` before either
writes it back, `RunLoadTest` returns a nil error, the workload has been called
10 times, and `ResponseTimes` has 9 entries. -/
theorem lost_response_time :
    (RunLoadTest ⟨fun _ _ => true, fun w j => (100 * w + j : Nat), [0, 0, 1, 1, 1, 0]⟩ none
        ⟨2, 5, 10, some fun _ _ => none⟩)
      = ⟨⟨[0, 1, 2, 3, 4, 101, 102, 103, 104], []⟩, none, 2,
          [none, none, none, none, none, none, none, none, none, none],
          [200000000, 200000000, 200000000, 200000000, 200000000, 200000000, 200000000,
            200000000, 200000000, 200000000], none⟩ := by
  decide

/-- C4 fails on the code: with `WorkerCount = 2`, `TotalRequests = 2` and a
workload that always fails, along the schedule in which both goroutines read
`errors` before either writes it back, both calls return an error and `Errors`
has one entry. -/
theorem lost_error :
    (RunLoadTest ⟨fun _ _ => true, fun _ _ => 0, [0, 0, 1, 1, 1, 0]⟩ none
        ⟨2, 5, 2, some fun w _ => some (40 + w)⟩)
      = ⟨⟨[0, 0], [40]⟩, none, 2, [some 40, some 41], [200000000, 200000000], none⟩ := by
  decide

/-- C9 fails on the code: with two workers of share 3, a context that is active
in the iterations 0 and 1 of each worker and done from iteration 2 on, and a
workload that always succeeds, along the schedule in which both goroutines read
`responseTimes` before either writes it back, each worker calls the workload
twice (`k = 2`) and stops, the 4 calls are made, and `ResponseTimes` has 3
entries: worker 1, whose response times are 100 and 101, has lost the record of
its first call. -/
theorem lost_record_after_cancel :
    (workerLoop (fun _ j _ => decide (2 ≤ j)) (fun _ _ => true)
        (fun w j => (100 * w + j : Nat)) (fun _ _ => none) 200000000 1 3 0).countP isCall = 2
      ∧ RunLoadTest ⟨fun _ _ => true, fun w j => (100 * w + j : Nat), [0, 0, 1, 1, 1, 0]⟩
          (some fun _ j _ => decide (2 ≤ j)) ⟨2, 5, 6, some fun _ _ => none⟩
        = ⟨⟨[0, 1, 101], []⟩, none, 2, [none, none, none, none],
            [200000000, 200000000, 200000000, 200000000], none⟩ := by
  decide

theorem finishOps_workerLoop_errors (pick : Nat → Nat → Bool) (elapsed : Nat → Nat → Duration)
    (interval : Duration) (w n j : Nat) (a : List Duration) (b : List GoError) (s : Shared) :
    (finishOps (workerLoop Background pick elapsed (fun _ _ => none) interval w n j)
      a b s).errors = s.errors := by
  induction n generalizing j a b s with
  | zero => rfl
  | succ n ih =>
    rw [workerLoop_background_succ]
    obtain ⟨a2, b2, h⟩ := finishOps_append (iteration none (elapsed w j) interval)
      (workerLoop Background pick elapsed (fun _ _ => none) interval w n (j + 1)) a b s
    rw [h, ih]
    rfl

theorem drain_spawn_errors (pick : Nat → Nat → Bool) (elapsed : Nat → Nat → Duration)
    (interval : Duration) (T W : Nat) (is : List Nat) (s : Shared) :
    (drain (is.map fun i => (⟨workerLoop Background pick elapsed (fun _ _ => none) interval i
        (numRequests T W i) 0, [], []⟩ : Thread)) s).errors = s.errors := by
  induction is generalizing s with
  | nil => rfl
  | cons i is ih =>
    simp only [List.map_cons, drain]
    rw [ih, finishOps_workerLoop_errors]

/-- Two goroutines that both read `responseTimes` before either writes it back:
one of the two appends is lost. -/
theorem runSchedule_race (d0 d1 i0 i1 : Duration) (l0 l1 : List Op) (rest : List Thread) :
    runSchedule [0, 0, 1, 1, 1, 0]
        (⟨iteration none d0 i0 ++ l0, [], []⟩ :: ⟨iteration none d1 i1 ++ l1, [], []⟩ :: rest)
        ⟨[], [], [], []⟩
      = (⟨Op.sleep i0 :: l0, [], []⟩ :: ⟨Op.sleep i1 :: l1, [], []⟩ :: rest,
          ⟨[d0], [], [none, none], []⟩) := rfl

theorem range_two (n : Nat) : List.range (n + 2) = 0 :: 1 :: List.range' 2 n := by
  rw [List.range_eq_range', List.range'_succ, List.range'_succ]

/-- Whenever workers 0 and 1 both have work and the workload never fails, along
the schedule in which both read `responseTimes` before either writes it back
the result has one entry less than the number of requests. -/
theorem race_loses_one (pick : Nat → Nat → Bool) (elapsed : Nat → Nat → Duration)
    (interval : Duration) (T W : Nat) (hW : 2 ≤ W) (hT : T < U64)
    (h0 : 1 ≤ numRequests T W 0) (h1 : 1 ≤ numRequests T W 1) :
    (drain
        (runSchedule [0, 0, 1, 1, 1, 0]
          (spawn Background ⟨pick, elapsed, [0, 0, 1, 1, 1, 0]⟩ (fun _ _ => none) interval T W)
          ⟨[], [], [], []⟩).1
        (runSchedule [0, 0, 1, 1, 1, 0]
          (spawn Background ⟨pick, elapsed, [0, 0, 1, 1, 1, 0]⟩ (fun _ _ => none) interval T W)
          ⟨[], [], [], []⟩).2).responseTimes.length + 1 = T
      ∧ (drain
        (runSchedule [0, 0, 1, 1, 1, 0]
          (spawn Background ⟨pick, elapsed, [0, 0, 1, 1, 1, 0]⟩ (fun _ _ => none) interval T W)
          ⟨[], [], [], []⟩).1
        (runSchedule [0, 0, 1, 1, 1, 0]
          (spawn Background ⟨pick, elapsed, [0, 0, 1, 1, 1, 0]⟩ (fun _ _ => none) interval T W)
          ⟨[], [], [], []⟩).2).errors = [] := by
  obtain ⟨V, rfl⟩ : ∃ V, W = V + 2 := ⟨W - 2, by omega⟩
  obtain ⟨n0, hn0⟩ : ∃ n, numRequests T (V + 2) 0 = n + 1 :=
    ⟨numRequests T (V + 2) 0 - 1, by omega⟩
  obtain ⟨n1, hn1⟩ : ∃ n, numRequests T (V + 2) 1 = n + 1 :=
    ⟨numRequests T (V + 2) 1 - 1, by omega⟩
  have hsum := sum_shares T (V + 2) (by omega) hT
  rw [range_two, List.map_cons, List.map_cons, List.sum_cons, List.sum_cons, hn0, hn1] at hsum
  have hsp : spawn Background ⟨pick, elapsed, [0, 0, 1, 1, 1, 0]⟩ (fun _ _ => none) interval T
        (V + 2)
      = ⟨iteration none (elapsed 0 0) interval
            ++ workerLoop Background pick elapsed (fun _ _ => none) interval 0 n0 1, [], []⟩
        :: ⟨iteration none (elapsed 1 0) interval
            ++ workerLoop Background pick elapsed (fun _ _ => none) interval 1 n1 1, [], []⟩
        :: (List.range' 2 V).map fun i =>
            (⟨workerLoop Background pick elapsed (fun _ _ => none) interval i
              (numRequests T (V + 2) i) 0, [], []⟩ : Thread) := by
    unfold spawn
    rw [range_two, List.map_cons, List.map_cons, hn0, hn1]
    rfl
  rw [hsp, runSchedule_race]
  simp only [drain, finishOps, execOp]
  rw [drain_spawn_errors, drain_spawn_times, finishOps_workerLoop_errors,
    finishOps_workerLoop_errors, finishOps_workerLoop_times, finishOps_workerLoop_times]
  refine ⟨?_, rfl⟩
  simp only [List.length_cons, List.length_nil]
  omega

theorem applyDefaults_nonzero (W R T : Nat) (f : Option Workload) (hW : W ≠ 0) (hR : R ≠ 0)
    (hT : T ≠ 0) : applyDefaults ⟨W, R, T, f⟩ = ⟨W, R, T, f⟩ := by
  simp [applyDefaults, hW, hR, hT]

/-- With at least two workers that both have work and a workload that never
fails, there is a schedule along which `RunLoadTest` returns a nil error after
`TotalRequests` workload calls with one entry less than `TotalRequests` in the
two collections combined. -/
theorem RunLoadTest_race (pick : Nat → Nat → Bool) (elapsed : Nat → Nat → Duration)
    (W R T : Nat) (hW : 2 ≤ W) (hR : 0 < R) (hR64 : R < U64) (hcap : T ≤ maxCap)
    (h0 : 1 ≤ numRequests T W 0) (h1 : 1 ≤ numRequests T W 1) :
    (RunLoadTest ⟨pick, elapsed, [0, 0, 1, 1, 1, 0]⟩ none
        ⟨W, R, T, some fun _ _ => none⟩).crashed = none
      ∧ (RunLoadTest ⟨pick, elapsed, [0, 0, 1, 1, 1, 0]⟩ none
        ⟨W, R, T, some fun _ _ => none⟩).err = none
      ∧ (RunLoadTest ⟨pick, elapsed, [0, 0, 1, 1, 1, 0]⟩ none
        ⟨W, R, T, some fun _ _ => none⟩).calls.length = T
      ∧ (RunLoadTest ⟨pick, elapsed, [0, 0, 1, 1, 1, 0]⟩ none
        ⟨W, R, T, some fun _ _ => none⟩).result.ResponseTimes.length
        + (RunLoadTest ⟨pick, elapsed, [0, 0, 1, 1, 1, 0]⟩ none
        ⟨W, R, T, some fun _ _ => none⟩).result.Errors.length + 1 = T := by
  have hT : T < U64 := Nat.lt_of_le_of_lt hcap (by decide)
  have hT0 : T ≠ 0 := by
    intro h
    subst h
    simp [numRequests] at h0
  obtain ⟨d, hd, _⟩ := requestInterval_cases R hR hR64
  have ha := applyDefaults_nonzero W R T (some fun _ _ => none) (by omega) (by omega) hT0
  have hc := calls_total ⟨pick, elapsed, [0, 0, 1, 1, 1, 0]⟩ (fun _ _ => none) d T W
    (by omega) hT
  have hl := race_loses_one pick elapsed d T W hW hT h0 h1
  rw [RunLoadTest_run _ none _ W R T (fun _ _ => none) d ha hcap hd]
  have hb : contextOf none = Background := rfl
  simp only [hb]
  refine ⟨trivial, trivial, hc, ?_⟩
  rw [hl.2]
  have h := hl.1
  simp only [List.length_nil]
  omega

/-- C8 fails on the code: with `WorkerCount = 50`, `TotalRequests = 1000` and a
workload that takes no time and always succeeds, along the schedule in which
goroutines 0 and 1 both read `responseTimes` before either writes it back,
`RunLoadTest` returns a nil error, the workload has been called 1000 times and
the two collections hold 999 entries combined. -/
theorem lost_update_50_1000 :
    (RunLoadTest ⟨fun _ _ => true, fun _ _ => 0, [0, 0, 1, 1, 1, 0]⟩ none
        ⟨50, 10, 1000, some fun _ _ => none⟩).err = none
      ∧ (RunLoadTest ⟨fun _ _ => true, fun _ _ => 0, [0, 0, 1, 1, 1, 0]⟩ none
        ⟨50, 10, 1000, some fun _ _ => none⟩).calls.length = 1000
      ∧ (RunLoadTest ⟨fun _ _ => true, fun _ _ => 0, [0, 0, 1, 1, 1, 0]⟩ none
        ⟨50, 10, 1000, some fun _ _ => none⟩).result.ResponseTimes.length
        + (RunLoadTest ⟨fun _ _ => true, fun _ _ => 0, [0, 0, 1, 1, 1, 0]⟩ none
        ⟨50, 10, 1000, some fun _ _ => none⟩).result.Errors.length = 999 := by
  have h := RunLoadTest_race (fun _ _ => true) (fun _ _ => 0) 50 10 1000 (by decide)
    (by decide) (by decide) (by decide) (by decide) (by decide)
  have h3 : _ + 1 = 999 + 1 := h.2.2.2
  exact ⟨h.2.1, h.2.2.1, Nat.add_right_cancel h3⟩

end Taz
